import Mathlib

/-
Verification of the reaction-coupling control logic of Castro
(Source/reactions/Castro_react.cpp): the Strang coupler, the simplified-SDC
coupler, and the zone gate (Castro::valid_zones_to_burn).

Modelling conventions:
  * Machine reals (amrex::Real) are embedded as rational numbers; every claim
    settled here is about exact real arithmetic, and all identities proved are
    field identities valid over any ordered field.
  * A MultiFab is embedded as a total function from 3-D integer cell indices
    and a component number to a value, together with a Boolean region
    predicate playing the role of Array4::contains.  Per-cell GPU kernels are
    embarrassingly parallel with per-cell write footprints, so a kernel pass
    is embedded pointwise as a function from the old array to the new array.
  * The stiff integrator (burner) is an external collaborator and enters as an
    arbitrary function argument of type BurnT -> R -> BurnT.
  * The model is single-rank: the MPI collectives (ReduceRealMin/Max,
    ReduceIntMin) act as the identity on one worker, and the cross-worker
    reduction machinery of the success flag is modelled separately over an
    explicit list of workers.
  * An out-of-bounds amrex::Vector access is undefined behaviour in the
    source; the embedding of valid_zones_to_burn therefore returns an Option,
    with none denoting an out-of-bounds read.
-/

set_option maxRecDepth 8000

namespace Castro

/-- The scalar type of the model: amrex::Real embedded as exact rationals. -/
abbrev R : Type := ℚ

/-- A 3-D cell index (i, j, k). -/
structure Idx where
  i : ℤ
  j : ℤ
  k : ℤ
deriving DecidableEq

/-- Runtime and compile-time configuration consumed by Castro_react.cpp:
the network sizes NumSpec and NumAux, the castro runtime parameters
(do_react, the react rho and T windows, disable_shock_burning,
reactions_max_solve_level), whether SHOCK_VAR is compiled in, the AMR level,
and the SDC iteration bookkeeping. -/
structure Params where
  numSpec : ℕ
  numAux : ℕ
  do_react : ℤ
  react_T_min : R
  react_T_max : R
  react_rho_min : R
  react_rho_max : R
  disable_shock_burning : ℤ
  shock_var : Bool
  level : ℤ
  reactions_max_solve_level : ℤ
  sdc_iteration : ℤ
  sdc_iters : ℤ

/- Conserved-state component layout.  The numeric values of the layout
constants live in headers outside this repository slice; they are modelled
from the spec's data model ordering (density, momentum, total energy,
internal energy, temperature, species, auxiliary, shock flag).  The claims
depend only on the constants being distinct and on the species and auxiliary
blocks being contiguous. -/

/-- State component index of density. -/
def URHO : ℕ := 0
/-- State component index of x-momentum. -/
def UMX : ℕ := 1
/-- State component index of y-momentum. -/
def UMY : ℕ := 2
/-- State component index of z-momentum. -/
def UMZ : ℕ := 3
/-- State component index of total energy. -/
def UEDEN : ℕ := 4
/-- State component index of internal energy. -/
def UEINT : ℕ := 5
/-- State component index of temperature. -/
def UTEMP : ℕ := 6
/-- State component index of the first species partial density. -/
def UFS : ℕ := 7
/-- State component index of the first auxiliary partial density. -/
def UFX (p : Params) : ℕ := 7 + p.numSpec
/-- State component index of the shock flag (when SHOCK_VAR is compiled in). -/
def USHK (p : Params) : ℕ := 7 + p.numSpec + p.numAux

/- burn_t layout for the simplified-SDC coupler (conserved vector y). -/

/-- burn_t conserved-vector slot of density. -/
def SRHO : ℕ := 0
/-- burn_t conserved-vector slot of x-momentum. -/
def SMX : ℕ := 1
/-- burn_t conserved-vector slot of y-momentum. -/
def SMY : ℕ := 2
/-- burn_t conserved-vector slot of z-momentum. -/
def SMZ : ℕ := 3
/-- burn_t conserved-vector slot of total energy. -/
def SEDEN : ℕ := 4
/-- burn_t conserved-vector slot of internal energy. -/
def SEINT : ℕ := 5
/-- burn_t conserved-vector slot of the first species. -/
def SFS : ℕ := 6
/-- burn_t conserved-vector slot of the first auxiliary quantity. -/
def SFX (p : Params) : ℕ := 6 + p.numSpec

/-- The burn cell context (burn_t) handed to the external integrator.
Both coupler shapes share this structure, as in the source; the Strang
coupler uses rho, T, e, xn, aux while the SDC coupler uses y, ydot_a and the
iteration bookkeeping.  Function-valued fields stand for the fixed-length
arrays of the source. -/
structure BurnT where
  rho : R := 0
  T : R := 0
  e : R := 0
  xn : ℕ → R := fun _ => 0
  aux : ℕ → R := fun _ => 0
  y : ℕ → R := fun _ => 0
  ydot_a : ℕ → R := fun _ => 0
  T_from_eden : Bool := false
  i : ℤ := 0
  j : ℤ := 0
  k : ℤ := 0
  sdc_iter : ℤ := 0
  num_sdc_iters : ℤ := 0
  success : Bool := true
  n_rhs : ℕ := 0
  n_jac : ℕ := 0

/- ------------------------------------------------------------------ -/
/- Zone gate: Castro::valid_zones_to_burn                              -/
/- ------------------------------------------------------------------ -/

/-- The density and temperature of one cell, as read by the zone gate
(State.min/max over component URHO resp. UTEMP). -/
structure RTCell where
  rho : R
  T : R

/-- The small sentinel of valid_zones_to_burn (Real small = 1.e-10). -/
def vSmall : R := 1 / 10 ^ 10

/-- The large sentinel of valid_zones_to_burn (Real large = 1.e199). -/
def vLarge : R := 10 ^ 199

/-- Whether the lower density bound is limiting (react_rho_min >= small). -/
def limitSmallRho (p : Params) : Bool := decide (p.react_rho_min ≥ vSmall)

/-- Whether the upper density bound is limiting (react_rho_max <= large). -/
def limitLargeRho (p : Params) : Bool := decide (p.react_rho_max ≤ vLarge)

/-- Whether the lower temperature bound is limiting (react_T_min >= small). -/
def limitSmallT (p : Params) : Bool := decide (p.react_T_min ≥ vSmall)

/-- Whether the upper temperature bound is limiting (react_T_max <= large). -/
def limitLargeT (p : Params) : Bool := decide (p.react_T_max ≤ vLarge)

/-- Minimum of a per-cell quantity over the (nonempty) grid, modelling
State.min over the valid region of a single worker. -/
def gridMin (f : RTCell → R) (c0 : RTCell) (cs : List RTCell) : R :=
  cs.foldl (fun a c => min a (f c)) (f c0)

/-- Maximum of a per-cell quantity over the (nonempty) grid, modelling
State.max over the valid region of a single worker. -/
def gridMax (f : RTCell → R) (c0 : RTCell) (cs : List RTCell) : R :=
  cs.foldl (fun a c => max a (f c)) (f c0)

/-- The small_limiters vector, filled in push order: the density minimum
if the lower density bound is limiting, then the temperature minimum if the
lower temperature bound is limiting. -/
def smallLimiters (p : Params) (c0 : RTCell) (cs : List RTCell) : List R :=
  (if limitSmallRho p then [gridMin (fun c => c.rho) c0 cs] else []) ++
  (if limitSmallT p then [gridMin (fun c => c.T) c0 cs] else [])

/-- The large_limiters vector, filled in push order: the density maximum
if the upper density bound is limiting, then the temperature maximum if the
upper temperature bound is limiting. -/
def largeLimiters (p : Params) (c0 : RTCell) (cs : List RTCell) : List R :=
  (if limitLargeRho p then [gridMax (fun c => c.rho) c0 cs] else []) ++
  (if limitLargeT p then [gridMax (fun c => c.T) c0 cs] else [])

/-- Read the reduced small limiters back out of the vector, following the
branch structure of the source exactly; yields (smalldens, small_T), with
the sentinel vSmall standing in for a bound that is not limiting.  A none
denotes an out-of-bounds vector access. -/
def readBackSmall (p : Params) (v : List R) : Option (R × R) :=
  if v.length > 0 then
    if limitSmallRho p then
      match v.get? 0 with
      | none => none
      | some sd =>
        if limitSmallT p then
          match v.get? 1 with
          | none => none
          | some st => some (sd, st)
        else some (sd, vSmall)
    else
      match v.get? 0 with
      | none => none
      | some st => some (vSmall, st)
  else some (vSmall, vSmall)

/-- Read the reduced large limiters back out of the vector, following the
branch structure of the source exactly; yields (largedens, large_T).  In the
branch where the upper density bound is not limiting, the source reads
large_limiters[1] (not index 0); the embedding reproduces this, and a none
denotes the resulting out-of-bounds access when the vector has one element. -/
def readBackLarge (p : Params) (v : List R) : Option (R × R) :=
  if v.length > 0 then
    if limitLargeRho p then
      match v.get? 0 with
      | none => none
      | some ld =>
        if limitLargeT p then
          match v.get? 1 with
          | none => none
          | some lt => some (ld, lt)
        else some (ld, vLarge)
    else
      match v.get? 1 with
      | none => none
      | some lt => some (vLarge, lt)
  else some (vLarge, vLarge)

/-- Castro::valid_zones_to_burn on a single worker over a nonempty grid.
Returns some true / some false as the source returns true / false, and none
when the source performs an out-of-bounds amrex::Vector read. -/
def validZonesToBurn (p : Params) (c0 : RTCell) (cs : List RTCell) : Option Bool :=
  if limitSmallRho p || limitLargeRho p || limitSmallT p || limitLargeT p then
    match readBackSmall p (smallLimiters p c0 cs),
          readBackLarge p (largeLimiters p c0 cs) with
    | some (sd, st), some (ld, lt) =>
        some (decide (ld ≥ p.react_rho_min) && decide (sd ≤ p.react_rho_max) &&
              decide (lt ≥ p.react_T_min) && decide (st ≤ p.react_T_max))
    | _, _ => none
  else
    some true

/-- Modelled from the spec: the composite overlap test of section 4.1,
stated on the genuine global extremes of density and temperature
(global_max(rho) >= rho_min, global_min(rho) <= rho_max, global_max(T) >=
T_min, global_min(T) <= T_max), for comparison with the source's gate. -/
def specOverlap (p : Params) (c0 : RTCell) (cs : List RTCell) : Bool :=
  decide (gridMax (fun c => c.rho) c0 cs ≥ p.react_rho_min) &&
  decide (gridMin (fun c => c.rho) c0 cs ≤ p.react_rho_max) &&
  decide (gridMax (fun c => c.T) c0 cs ≥ p.react_T_min) &&
  decide (gridMin (fun c => c.T) c0 cs ≤ p.react_T_max)

/-- The overlap test the source's gate actually evaluates when every
read-back is in bounds: each extreme is the genuine global reduction when
the corresponding bound is limiting and the sentinel (vSmall or vLarge)
otherwise. -/
def effectiveOverlap (p : Params) (c0 : RTCell) (cs : List RTCell) : Bool :=
  (decide ((if limitLargeRho p then gridMax (fun c => c.rho) c0 cs else vLarge) ≥ p.react_rho_min)) &&
  (decide ((if limitSmallRho p then gridMin (fun c => c.rho) c0 cs else vSmall) ≤ p.react_rho_max)) &&
  (decide ((if limitLargeT p then gridMax (fun c => c.T) c0 cs else vLarge) ≥ p.react_T_min)) &&
  (decide ((if limitSmallT p then gridMin (fun c => c.T) c0 cs else vSmall) ≤ p.react_T_max))

/- ------------------------------------------------------------------ -/
/- Strang coupler: Castro::react_state(MultiFab s, MultiFab r, t, dt)  -/
/- ------------------------------------------------------------------ -/

/-- The do_burn flag of the per-cell kernels: false when the shock flag
blocks burning (SHOCK_VAR compiled in, the shock component positive and
disable_shock_burning == 1) or when the given temperature and density fall
outside the react window; true otherwise.  The Strang kernel evaluates it
on the state array s, the SDC kernel on old-time rho and T with the shock
component of the new-time state. -/
def doBurnFlag (p : Params) (shock rho T : R) : Bool :=
  let shockBlock : Bool :=
    p.shock_var && decide (shock > 0) && decide (p.disable_shock_burning = 1)
  let windowBlock : Bool :=
    decide (T < p.react_T_min) || decide (T > p.react_T_max) ||
    decide (rho < p.react_rho_min) || decide (rho > p.react_rho_max)
  !shockBlock && !windowBlock

/-- The do_burn flag of the Strang per-cell kernel, read from the state
array. -/
def strangDoBurn (p : Params) (U : Idx → ℕ → R) (c : Idx) : Bool :=
  doBurnFlag p (U c (USHK p)) (U c URHO) (U c UTEMP)

/-- The burn cell context the Strang kernel builds from the state array:
density, temperature, zero generated energy, species and auxiliary mass
fractions obtained by multiplying the partial densities with the reciprocal
density, a true success flag and zeroed call counters. -/
def strangBurnIn (p : Params) (U : Idx → ℕ → R) (c : Idx) : BurnT :=
  { rho := U c URHO
    T := U c UTEMP
    e := 0
    xn := fun n => U c (UFS + n) * (1 / U c URHO)
    aux := fun n => U c (UFX p + n) * (1 / U c URHO)
    success := true
    n_rhs := 0
    n_jac := 0 }

/-- The burn cell context after the Strang kernel: the burner's output when
the cell burns, the untouched input context otherwise. -/
def strangBurnOut (p : Params) (burner : BurnT → R → BurnT) (U : Idx → ℕ → R)
    (dt : R) (c : Idx) : BurnT :=
  if strangDoBurn p U c then burner (strangBurnIn p U c) dt else strangBurnIn p U c

/-- Whether the Strang kernel records burn_failed = 1 for this cell. -/
def strangCellFailed (p : Params) (burner : BurnT → R → BurnT) (U : Idx → ℕ → R)
    (dt : R) (c : Idx) : Bool :=
  !(strangBurnOut p burner U dt c).success

/-- The per-cell write of the Strang kernel into the reactions array, given
the cell's previous components: for a burning cell, difference quotients
for species, auxiliary and energy, and the cost metric
max(1, n_rhs + 2 n_jac); for a non-burning cell, zeros and cost metric 1;
components beyond the cost metric are not written. -/
def strangCellRates (p : Params) (burner : BurnT → R → BurnT) (U : Idx → ℕ → R)
    (dt : R) (c : Idx) (old : ℕ → R) : ℕ → R := fun comp =>
  if strangDoBurn p U c then
    let bs := strangBurnOut p burner U dt c
    if comp < p.numSpec then
      U c URHO * (bs.xn comp - U c (UFS + comp) * (1 / U c URHO)) / dt
    else if comp < p.numSpec + p.numAux then
      U c URHO * (bs.aux (comp - p.numSpec) - U c (UFX p + (comp - p.numSpec)) * (1 / U c URHO)) / dt
    else if comp = p.numSpec + p.numAux then
      U c URHO * bs.e / dt
    else if comp = p.numSpec + p.numAux + 1 then
      max 1 ((bs.n_rhs : R) + 2 * (bs.n_jac : R))
    else old comp
  else
    if comp < p.numSpec + p.numAux + 1 then 0
    else if comp = p.numSpec + p.numAux + 1 then 1
    else old comp

/-- The reactions array after the Strang rate-computation pass over the
grown tile boxes bx: cells of bx that the reactions array contains receive
the per-cell write; every other entry keeps its previous contents. -/
def strangKernelRates (p : Params) (burner : BurnT → R → BurnT) (U r1 : Idx → ℕ → R)
    (containsR : Idx → Bool) (bx : List Idx) (dt : R) : Idx → ℕ → R := fun c comp =>
  if c ∈ bx ∧ containsR c = true then strangCellRates p burner U dt c (r1 c) comp
  else r1 c comp

/-- The state array after the second Strang pass (state += rate * dt) over
bx, applied wherever both the state and the reactions arrays contain the
cell: species and auxiliary partial densities are incremented by their rate
times dt, and internal and total energy by the energy rate times dt. -/
def strangApplyRates (p : Params) (U r2 : Idx → ℕ → R) (containsU containsR : Idx → Bool)
    (bx : List Idx) (dt : R) : Idx → ℕ → R := fun c comp =>
  if c ∈ bx ∧ containsU c = true ∧ containsR c = true then
    if UFS ≤ comp ∧ comp < UFS + p.numSpec then
      U c comp + r2 c (comp - UFS) * dt
    else if UFX p ≤ comp ∧ comp < UFX p + p.numAux then
      U c comp + r2 c (comp - UFX p + p.numSpec) * dt
    else if comp = UEINT then
      U c comp + r2 c (p.numSpec + p.numAux) * dt
    else if comp = UEDEN then
      U c comp + r2 c (p.numSpec + p.numAux) * dt
    else U c comp
  else U c comp

/-- The ReduceOpSum reduction of the per-cell burn_failed indicators over
one worker's cells. -/
def strangFailedSum (p : Params) (burner : BurnT → R → BurnT) (U : Idx → ℕ → R)
    (bx : List Idx) (dt : R) : R :=
  (bx.map fun c => if strangCellFailed p burner U dt c then (1 : R) else 0).sum

/-- The per-worker burn_success integer of the Strang coupler: 1 downgraded
to 0 when the failure sum is nonzero. -/
def strangWorkerSuccessInt (p : Params) (burner : BurnT → R → BurnT) (U : Idx → ℕ → R)
    (bx : List Idx) (dt : R) : ℤ :=
  if strangFailedSum p burner U bx dt ≠ 0 then 0 else 1

/-- The density and temperature of one cell of the state array, as the zone
gate reads them through State.min and State.max. -/
def stateRT (U : Idx → ℕ → R) (c : Idx) : RTCell := ⟨U c URHO, U c UTEMP⟩

/-- The outcome of the Strang coupler on one worker: the updated state
array, the reactions array, the success flag and the number of integrator
invocations. -/
structure StrangResult where
  state : Idx → ℕ → R
  rates : Idx → ℕ → R
  success : Bool
  burnerCalls : ℕ

/-- The early-exit outcome shared by the do_react-disabled path and the
zone-gate skip path: state untouched, reactions zeroed over their whole
extent (r.setVal(0.0, r.nGrow())), success, no integrator invocations. -/
def strangEarlyExit (U : Idx → ℕ → R) : StrangResult :=
  ⟨U, fun _ _ => 0, true, 0⟩

/-- Whether this level runs the burn kernel
(level <= castro::reactions_max_solve_level). -/
def strangSolveHere (p : Params) : Bool :=
  decide (p.level ≤ p.reactions_max_solve_level)

/-- The burn-path outcome of the Strang coupler on one worker: the
reactions array is first interpolated from the coarse level when this level
does not solve (FillCoarsePatch, modelled by the coarse argument), the rate
kernel runs when this level solves, and the second pass applies the rates
to the state in either case. -/
def strangBurnPath (p : Params) (burner : BurnT → R → BurnT)
    (U r0 coarse : Idx → ℕ → R) (containsU containsR : Idx → Bool)
    (bx : List Idx) (dt : R) : StrangResult :=
  let r1 := if p.reactions_max_solve_level < p.level ∧ 0 < p.level then coarse else r0
  let r2 := if strangSolveHere p then strangKernelRates p burner U r1 containsR bx dt else r1
  let s : ℤ := if strangSolveHere p then strangWorkerSuccessInt p burner U bx dt else 1
  ⟨strangApplyRates p U r2 containsU containsR bx dt, r2, decide (s ≠ 0),
   if strangSolveHere p then (bx.filter fun c => strangDoBurn p U c).length else 0⟩

/-- The Strang Castro::react_state on one worker (the cross-worker
ReduceIntMin is the identity on a single rank).  The zone gate is evaluated
on the valid cells v0 :: vs of the state; none propagates the gate's
out-of-bounds read. -/
def strangReact (p : Params) (burner : BurnT → R → BurnT)
    (U r0 coarse : Idx → ℕ → R) (containsU containsR : Idx → Bool)
    (v0 : Idx) (vs : List Idx) (bx : List Idx) (dt : R) : Option StrangResult :=
  if p.do_react ≠ 1 then some (strangEarlyExit U)
  else
    match validZonesToBurn p (stateRT U v0) (vs.map (stateRT U)) with
    | none => none
    | some g =>
      if g then some (strangBurnPath p burner U r0 coarse containsU containsR bx dt)
      else some (strangEarlyExit U)

/-- Division-checked variant of the Strang per-cell kernel: the reciprocal
of the density, computed for every cell of the grown tile box before the
burn decision is consumed, is fallible and yields none exactly when the
cell's density is zero.  All remaining kernel arithmetic is total. -/
def strangCellChecked (p : Params) (burner : BurnT → R → BurnT)
    (U : Idx → ℕ → R) (dt : R) (c : Idx) : Option BurnT :=
  if U c URHO = 0 then none
  else some (strangBurnOut p burner U dt c)

/-- Sum of one component over a list of cells, modelling MultiFab::sum over
the valid region. -/
def mfSum (cells : List Idx) (arr : Idx → ℕ → R) (comp : ℕ) : R :=
  (cells.map fun c => arr c comp).sum

/-- The energy-added diagnostic the source reports when
print_update_diagnostics is on: the domain sum of component NumSpec + 1 of
the reactions array. -/
def eAddedDiagnostic (p : Params) (cells : List Idx) (arr : Idx → ℕ → R) : R :=
  mfSum cells arr (p.numSpec + 1)

/- ------------------------------------------------------------------ -/
/- Simplified-SDC coupler: Castro::react_state(time, dt)               -/
/- ------------------------------------------------------------------ -/

/-- The do_burn flag of the SDC per-cell kernel: the shock test reads the
new-time state, the window test reads old-time temperature and density. -/
def sdcDoBurn (p : Params) (Uold Unew : Idx → ℕ → R) (c : Idx) : Bool :=
  doBurnFlag p (Unew c (USHK p)) (Uold c URHO) (Uold c UTEMP)

/-- Load a conserved state vector of the U layout into the burn_t conserved
layout (slots SRHO .. SFX + NumAux - 1), as the SDC kernel does for the
old-time state (into y) and for the non-reacting source terms (into
ydot_a). -/
def sdcLoadY (p : Params) (V : Idx → ℕ → R) (c : Idx) : ℕ → R := fun n =>
  if n = SRHO then V c URHO
  else if n = SMX then V c UMX
  else if n = SMY then V c UMY
  else if n = SMZ then V c UMZ
  else if n = SEDEN then V c UEDEN
  else if n = SEINT then V c UEINT
  else if SFS ≤ n ∧ n < SFS + p.numSpec then V c (UFS + (n - SFS))
  else if SFX p ≤ n ∧ n < SFX p + p.numAux then V c (UFX p + (n - SFX p))
  else 0

/-- The burn cell context the SDC kernel builds: the old-time conserved
state in y, the non-reacting source terms in ydot_a, the old-time
temperature as EOS guess, the cell index, and the deferred-correction
iteration bookkeeping.  (The NSE_THERMO reactive-source feed is compiled
out in this configuration.) -/
def sdcBurnIn (p : Params) (Uold asrc : Idx → ℕ → R) (c : Idx) : BurnT :=
  { y := sdcLoadY p Uold c
    ydot_a := sdcLoadY p asrc c
    T := Uold c UTEMP
    rho := Uold c URHO
    T_from_eden := false
    i := c.i
    j := c.j
    k := c.k
    sdc_iter := p.sdc_iteration
    num_sdc_iters := p.sdc_iters
    success := true }

/-- The burn cell context after the SDC kernel: the burner's output when
the cell burns, the untouched input context otherwise. -/
def sdcBurnOut (p : Params) (burner : BurnT → R → BurnT)
    (Uold Unew asrc : Idx → ℕ → R) (dt : R) (c : Idx) : BurnT :=
  if sdcDoBurn p Uold Unew c then burner (sdcBurnIn p Uold asrc c) dt
  else sdcBurnIn p Uold asrc c

/-- Whether the SDC kernel records burn_failed = 1 for this cell. -/
def sdcCellFailed (p : Params) (burner : BurnT → R → BurnT)
    (Uold Unew asrc : Idx → ℕ → R) (dt : R) (c : Idx) : Bool :=
  !(sdcBurnOut p burner Uold Unew asrc dt c).success

/-- The new-time state after the SDC pass over bx: a burning cell has its
total energy, internal energy, species and auxiliary components overwritten
by the integrator's conserved output; everything else keeps the advected
new-time value. -/
def sdcKernelState (p : Params) (burner : BurnT → R → BurnT)
    (Uold Unew asrc : Idx → ℕ → R) (bx : List Idx) (dt : R) : Idx → ℕ → R := fun c comp =>
  if c ∈ bx ∧ sdcDoBurn p Uold Unew c = true then
    let bs := sdcBurnOut p burner Uold Unew asrc dt c
    if comp = UEDEN then bs.y SEDEN
    else if comp = UEINT then bs.y SEINT
    else if UFS ≤ comp ∧ comp < UFS + p.numSpec then bs.y (SFS + (comp - UFS))
    else if UFX p ≤ comp ∧ comp < UFX p + p.numAux then bs.y (SFX p + (comp - UFX p))
    else Unew c comp
  else Unew c comp

/-- The reactions array after the SDC pass: it is zeroed over its whole
extent at the start of the call (reactions.setVal(0.0, nGrow)), and a
burning cell of bx that the reactions array contains then receives
difference quotients (new minus old over dt) for species, auxiliary and
internal energy, and the cost metric; all other entries stay zero. -/
def sdcKernelRates (p : Params) (burner : BurnT → R → BurnT)
    (Uold Unew asrc : Idx → ℕ → R) (containsR : Idx → Bool)
    (bx : List Idx) (dt : R) : Idx → ℕ → R := fun c comp =>
  if c ∈ bx ∧ sdcDoBurn p Uold Unew c = true ∧ containsR c = true then
    let bs := sdcBurnOut p burner Uold Unew asrc dt c
    if comp < p.numSpec then
      (bs.y (SFS + comp) - Uold c (UFS + comp)) / dt
    else if comp < p.numSpec + p.numAux then
      (bs.y (SFX p + (comp - p.numSpec)) - Uold c (UFX p + (comp - p.numSpec))) / dt
    else if comp = p.numSpec + p.numAux then
      (bs.y SEINT - Uold c UEINT) / dt
    else if comp = p.numSpec + p.numAux + 1 then
      max 1 ((bs.n_rhs : R) + 2 * (bs.n_jac : R))
    else 0
  else 0

/-- The ReduceOpSum reduction of the per-cell burn_failed indicators of the
SDC coupler over one worker's cells. -/
def sdcFailedSum (p : Params) (burner : BurnT → R → BurnT)
    (Uold Unew asrc : Idx → ℕ → R) (bx : List Idx) (dt : R) : R :=
  (bx.map fun c => if sdcCellFailed p burner Uold Unew asrc dt c then (1 : R) else 0).sum

/-- The per-worker burn_success integer of the SDC coupler. -/
def sdcWorkerSuccessInt (p : Params) (burner : BurnT → R → BurnT)
    (Uold Unew asrc : Idx → ℕ → R) (bx : List Idx) (dt : R) : ℤ :=
  if sdcFailedSum p burner Uold Unew asrc bx dt ≠ 0 then 0 else 1

/-- The outcome of the SDC coupler on one worker: the updated new-time
state, the reactions array and the success flag.  (The trailing
FillBoundary halo exchange belongs to the external domain layer.) -/
structure SdcResult where
  newState : Idx → ℕ → R
  rates : Idx → ℕ → R
  success : Bool

/-- The SDC Castro::react_state on one worker (the cross-worker
ReduceIntMin is the identity on a single rank). -/
def sdcReact (p : Params) (burner : BurnT → R → BurnT)
    (Uold Unew asrc : Idx → ℕ → R) (containsR : Idx → Bool)
    (bx : List Idx) (dt : R) : SdcResult :=
  ⟨sdcKernelState p burner Uold Unew asrc bx dt,
   sdcKernelRates p burner Uold Unew asrc containsR bx dt,
   decide (sdcWorkerSuccessInt p burner Uold Unew asrc bx dt ≠ 0)⟩

/- ------------------------------------------------------------------ -/
/- Cross-worker success reduction                                      -/
/- ------------------------------------------------------------------ -/

/-- One Strang worker's inputs: its portion of the state and its grown tile
boxes. -/
structure StrangWorker where
  U : Idx → ℕ → R
  bx : List Idx

/-- One SDC worker's inputs. -/
structure SdcWorker where
  Uold : Idx → ℕ → R
  Unew : Idx → ℕ → R
  asrc : Idx → ℕ → R
  bx : List Idx

/-- ParallelDescriptor::ReduceIntMin over the per-worker values. -/
def reduceIntMin (s0 : ℤ) (ss : List ℤ) : ℤ := ss.foldl min s0

/-- The cross-worker success flag of the Strang coupler: the minimum of the
per-worker burn_success integers, converted to bool. -/
def strangGlobalSuccess (p : Params) (burner : BurnT → R → BurnT) (dt : R)
    (w0 : StrangWorker) (ws : List StrangWorker) : Bool :=
  decide (reduceIntMin (strangWorkerSuccessInt p burner w0.U w0.bx dt)
    (ws.map fun w => strangWorkerSuccessInt p burner w.U w.bx dt) ≠ 0)

/-- The cross-worker success flag of the SDC coupler. -/
def sdcGlobalSuccess (p : Params) (burner : BurnT → R → BurnT) (dt : R)
    (w0 : SdcWorker) (ws : List SdcWorker) : Bool :=
  decide (reduceIntMin (sdcWorkerSuccessInt p burner w0.Uold w0.Unew w0.asrc w0.bx dt)
    (ws.map fun w => sdcWorkerSuccessInt p burner w.Uold w.Unew w.asrc w.bx dt) ≠ 0)

/- Concrete zone-gate configurations used in the gate theorems below. -/

/-- A configuration in which only the upper temperature bound is limiting:
react_rho_min = 0 and react_rho_max = 1e200 (the documented defaults),
react_T_min = 0, react_T_max = 100. -/
def pGateBug : Params := ⟨1, 0, 1, 0, 100, 0, 10 ^ 200, 0, false, 0, 100, 0, 1⟩

/-- A configuration in which every bound is non-default but none is limiting:
react_rho_min = 1e-11 lies strictly between the default 0 and the limiter
threshold 1e-10, and the remaining bounds are at their defaults. -/
def pGateNearDefault : Params := ⟨1, 0, 1, 0, 10 ^ 200, 1 / 10 ^ 11, 10 ^ 200, 0, false, 0, 100, 0, 1⟩

/-- The fully default configuration (bounds 0 and 1e200 on both windows). -/
def pGateDefaults : Params := ⟨1, 0, 1, 0, 10 ^ 200, 0, 10 ^ 200, 0, false, 0, 100, 0, 1⟩

/-- A configuration with only the lower temperature bound limiting
(react_T_min = 5). -/
def pGateActiveT : Params := ⟨1, 0, 1, 5, 10 ^ 200, 0, 10 ^ 200, 0, false, 0, 100, 0, 1⟩

/- Concrete coupler inputs used by witnesses and counterexamples below. -/

/-- The origin cell. -/
def c000 : Idx := ⟨0, 0, 0⟩

/-- A cell outside the one-cell tile box used in the concrete runs. -/
def c100 : Idx := ⟨1, 0, 0⟩

/-- The everywhere-true region predicate (state and rate arrays congruent). -/
def containsAll : Idx → Bool := fun _ => true

/-- The all-zero array. -/
def zeroArr : Idx → ℕ → R := fun _ _ => 0

/-- An array holding the stale value 7 in every entry. -/
def staleArr : Idx → ℕ → R := fun _ _ => 7

/-- A burner that returns the context unchanged. -/
def burnerId : BurnT → R → BurnT := fun bs _ => bs

/-- One species, no auxiliary species, burning enabled, all windows at
their defaults except react_T_min = 5 (so a cell at temperature 1 is not
burned, while the zone gate still passes for such a grid). -/
def pNoBurnT5 : Params := ⟨1, 0, 1, 5, 10 ^ 200, 0, 10 ^ 200, 0, false, 0, 100, 0, 1⟩

/-- A state array with density 1 and temperature 1 in every cell, species
partial density 1, everything else 0. -/
def stateT1 : Idx → ℕ → R := fun _ comp =>
  if comp = URHO then 1 else if comp = UTEMP then 1 else if comp = UFS then 1 else 0

/-- One species and one auxiliary species, burning enabled, fully default
windows. -/
def pRoundTrip : Params := ⟨1, 1, 1, 0, 10 ^ 200, 0, 10 ^ 200, 0, false, 0, 100, 0, 1⟩

/-- A burner that moves every species mass fraction to 1/2, every auxiliary
fraction to 1/4, generates specific energy 2 and reports 3 RHS calls. -/
def burnerRT : BurnT → R → BurnT := fun bs _ =>
  { bs with xn := fun _ => 1 / 2, aux := fun _ => 1 / 4, e := 2, n_rhs := 3 }

/-- A state with density 2, temperature 1, internal energy 10, total
energy 20, species partial density 2 and auxiliary partial density 1. -/
def stateRT2 : Idx → ℕ → R := fun _ comp =>
  if comp = URHO then 2 else if comp = UTEMP then 1
  else if comp = UEINT then 10 else if comp = UEDEN then 20
  else if comp = UFS then 2 else if comp = UFX pRoundTrip then 1 else 0

/-- One species, no auxiliary species, burning enabled, fully default
windows (so every cell burns). -/
def pBurnAll : Params := ⟨1, 0, 1, 0, 10 ^ 200, 0, 10 ^ 200, 0, false, 0, 100, 0, 1⟩

/-- A burner that generates specific energy 5 and reports 3 RHS calls,
leaving the composition unchanged. -/
def burnerDiag : BurnT → R → BurnT := fun bs _ => { bs with e := 5, n_rhs := 3 }

/-- pBurnAll with the global enable flag do_react switched off. -/
def pReactOff : Params := ⟨1, 0, 0, 0, 10 ^ 200, 0, 10 ^ 200, 0, false, 0, 100, 0, 1⟩

/-- A configuration whose density window [5, 100] excludes a grid whose
densities all equal 1, so the zone gate reports no zones to burn. -/
def pGateSkip : Params := ⟨1, 0, 1, 0, 10 ^ 200, 5, 100, 0, false, 0, 100, 0, 1⟩

/-- An old-time SDC state: density 2, temperature 3, and value comp + 2 in
every other component. -/
def stateOld8 : Idx → ℕ → R := fun _ comp =>
  if comp = URHO then 2 else if comp = UTEMP then 3 else (comp : R) + 2

/-- A new-time SDC state holding comp + 50 in component comp. -/
def stateNew8 : Idx → ℕ → R := fun _ comp => (comp : R) + 50

/-- A burner that overwrites the conserved vector y with 100 + n in slot n
and reports 4 RHS calls. -/
def burnerY : BurnT → R → BurnT := fun bs _ =>
  { bs with y := fun n => 100 + (n : R), n_rhs := 4 }

/-- C3: evaluation of valid_zones_to_burn at the failing configuration.
With only the upper temperature bound limiting, the large-limiters vector
holds the single element max(T), pushed at index 0, but the read-back path
for an inactive upper density bound reads index 1: the access is out of the
one-element vector's bounds and the function has no defined result.  The
claim (and the symmetric small-limiter path of the source) read back in push
order from index 0. -/
theorem zone_gate_large_T_read_out_of_bounds :
    validZonesToBurn pGateBug ⟨1, 50⟩ [] = none := by
  norm_num [validZonesToBurn, readBackSmall, readBackLarge, smallLimiters, largeLimiters,
            limitSmallRho, limitLargeRho, limitSmallT, limitLargeT, vSmall, vLarge,
            gridMax, gridMin, pGateBug]

/-- C2 counterexample: a concrete input on which the claim is false.  With
react_rho_min = 1e-11 (non-default, but below the limiter threshold 1e-10)
and a single cell of density 1e-12, the composite overlap test of the claim
fails (global_max(rho) = 1e-12 < rho_min), yet valid_zones_to_burn treats no
bound as limiting and returns true, so the function does not return false
if and only if the composite test fails. -/
theorem zone_gate_true_despite_overlap_failure :
    validZonesToBurn pGateNearDefault ⟨1 / 10 ^ 12, 1⟩ [] = some true ∧
    specOverlap pGateNearDefault ⟨1 / 10 ^ 12, 1⟩ [] = false := by
  constructor
  · norm_num [validZonesToBurn, limitSmallRho, limitLargeRho, limitSmallT, limitLargeT,
              vSmall, vLarge, pGateNearDefault]
  · norm_num [specOverlap, gridMax, gridMin, pGateNearDefault]

/-- C2 (amended): valid_zones_to_burn returns true whenever all four bounds
are at their defaults (0 and 1e200); and whenever the large-limiter
read-back stays inside the vector (the upper density bound is limiting, or
the upper temperature bound is not), it returns exactly the overlap test in
which each extreme is the global reduction when the corresponding bound is
limiting (at least 1e-10 away from the default for the lower bounds, at
most 1e199 for the upper ones) and the sentinel 1e-10 or 1e199 otherwise. -/
theorem zone_gate_defaults_and_effective_test (p : Params) (c0 : RTCell) (cs : List RTCell) :
    ((p.react_rho_min = 0 ∧ p.react_rho_max = 10 ^ 200 ∧
      p.react_T_min = 0 ∧ p.react_T_max = 10 ^ 200) →
        validZonesToBurn p c0 cs = some true) ∧
    ((limitLargeRho p = true ∨ limitLargeT p = false) →
        validZonesToBurn p c0 cs = some (effectiveOverlap p c0 cs)) := by
  constructor
  · rintro ⟨h1, h2, h3, h4⟩
    norm_num [validZonesToBurn, limitSmallRho, limitLargeRho, limitSmallT, limitLargeT,
              vSmall, vLarge, h1, h2, h3, h4]
  · intro hsafe
    cases hsr : limitSmallRho p <;> cases hst : limitSmallT p <;>
      cases hlr : limitLargeRho p <;> cases hlt : limitLargeT p
    all_goals
      first
      | (rcases hsafe with h | h
         · exact Bool.noConfusion (hlr.symm.trans h)
         · exact Bool.noConfusion (hlt.symm.trans h))
      | (simp [validZonesToBurn, smallLimiters, largeLimiters, readBackSmall,
               readBackLarge, effectiveOverlap, hsr, hst, hlr, hlt]
         try
           (simp only [limitSmallRho, limitSmallT, limitLargeRho, limitLargeT,
                       decide_eq_false_iff_not, not_le, ge_iff_le] at hsr hst hlr hlt
            norm_num [vSmall, vLarge] at hsr hst hlr hlt ⊢
            refine ⟨⟨⟨?_, ?_⟩, ?_⟩, ?_⟩ <;> linarith))

/-- Witness for zone_gate_defaults_and_effective_test: the default
configuration passes the gate, and a configuration with only the lower
temperature bound limiting returns exactly the effective overlap test. -/
theorem zone_gate_defaults_and_effective_test_witness :
    validZonesToBurn pGateDefaults ⟨1, 1⟩ [] = some true ∧
    validZonesToBurn pGateActiveT ⟨1, 1⟩ [] =
      some (effectiveOverlap pGateActiveT ⟨1, 1⟩ []) := by
  constructor
  · exact (zone_gate_defaults_and_effective_test pGateDefaults ⟨1, 1⟩ []).1
      (by norm_num [pGateDefaults])
  · exact (zone_gate_defaults_and_effective_test pGateActiveT ⟨1, 1⟩ []).2
      (Or.inr (by norm_num [limitLargeT, vLarge, pGateActiveT]))

/- Helper lemmas shared by the claim theorems. -/

/-- When burning is enabled and the zone gate passes, the Strang coupler
takes its burn path. -/
theorem strangReact_eq_burnPath (p : Params) (burner : BurnT → R → BurnT)
    (U r0 coarse : Idx → ℕ → R) (cU cR : Idx → Bool)
    (v0 : Idx) (vs bx : List Idx) (dt : R)
    (hdr : p.do_react = 1)
    (hgate : validZonesToBurn p (stateRT U v0) (vs.map (stateRT U)) = some true) :
    strangReact p burner U r0 coarse cU cR v0 vs bx dt
      = some (strangBurnPath p burner U r0 coarse cU cR bx dt) := by
  simp [strangReact, hdr, hgate]

/-- On a level that solves the burn, the reactions array of the burn path
is the kernel pass applied to the incoming array. -/
theorem strangBurnPath_rates (p : Params) (burner : BurnT → R → BurnT)
    (U r0 coarse : Idx → ℕ → R) (cU cR : Idx → Bool) (bx : List Idx) (dt : R)
    (hlev : strangSolveHere p = true) :
    (strangBurnPath p burner U r0 coarse cU cR bx dt).rates
      = strangKernelRates p burner U r0 cR bx dt := by
  have hle : p.level ≤ p.reactions_max_solve_level := by
    simpa [strangSolveHere] using hlev
  have hnc : ¬(p.reactions_max_solve_level < p.level ∧ 0 < p.level) :=
    fun h => absurd h.1 (not_lt.mpr hle)
  simp [strangBurnPath, hlev, hnc]

/-- On a level that solves the burn, the state array of the burn path is
the second pass applied over the kernel's reactions array. -/
theorem strangBurnPath_state (p : Params) (burner : BurnT → R → BurnT)
    (U r0 coarse : Idx → ℕ → R) (cU cR : Idx → Bool) (bx : List Idx) (dt : R)
    (hlev : strangSolveHere p = true) :
    (strangBurnPath p burner U r0 coarse cU cR bx dt).state
      = strangApplyRates p U (strangKernelRates p burner U r0 cR bx dt) cU cR bx dt := by
  have hle : p.level ≤ p.reactions_max_solve_level := by
    simpa [strangSolveHere] using hlev
  have hnc : ¬(p.reactions_max_solve_level < p.level ∧ 0 < p.level) :=
    fun h => absurd h.1 (not_lt.mpr hle)
  simp [strangBurnPath, hlev, hnc]

/-- C10: when the global enable flag do_react is not 1, or the zone gate
reports that no zones can burn, the Strang react_state returns success with
the state array completely unchanged, the reactions array zeroed, and the
integrator invoked on no cell. -/
theorem strang_early_exit_no_burn (p : Params) (burner : BurnT → R → BurnT)
    (U r0 coarse : Idx → ℕ → R) (cU cR : Idx → Bool)
    (v0 : Idx) (vs bx : List Idx) (dt : R)
    (h : p.do_react ≠ 1 ∨
      validZonesToBurn p (stateRT U v0) (vs.map (stateRT U)) = some false) :
    strangReact p burner U r0 coarse cU cR v0 vs bx dt = some (strangEarlyExit U) := by
  rcases h with h | h
  · simp [strangReact, h]
  · by_cases hd : p.do_react = 1
    · simp [strangReact, hd, h]
    · simp [strangReact, hd]

/-- Witness for strang_early_exit_no_burn: with do_react = 0 the coupler
returns the untouched state, zero rates, success and zero burner calls. -/
theorem strang_early_exit_no_burn_witness :
    strangReact pReactOff burnerId stateT1 zeroArr zeroArr containsAll containsAll
      c000 [] [c000] 1 = some (strangEarlyExit stateT1) := by
  exact strang_early_exit_no_burn pReactOff burnerId stateT1 zeroArr zeroArr
    containsAll containsAll c000 [] [c000] 1 (Or.inl (by norm_num [pReactOff]))

/-- C9: the division-checked Strang per-cell kernel is total on a cell
exactly when that cell's density is nonzero, for every configuration of the
react window and the shock policy: the reciprocal of the density and the
species and auxiliary mass fractions are formed for every cell of the
grown tile box, whether or not the cell burns, so the react_rho_min window
does not guard the division. -/
theorem strang_kernel_total_iff_density_nonzero (p : Params)
    (burner : BurnT → R → BurnT) (U : Idx → ℕ → R) (dt : R) (c : Idx) :
    (strangCellChecked p burner U dt c).isSome = true ↔ U c URHO ≠ 0 := by
  rcases eq_or_ne (U c URHO) 0 with h | h <;> simp [strangCellChecked, h]

/-- Sum of 0/1 indicators over a list of flags vanishes exactly when every
flag is false. -/
theorem indicatorSum_eq_zero_iff (l : List Bool) :
    ((l.map fun b => if b then (1 : R) else 0).sum = 0) ↔ ∀ b ∈ l, b = false := by
  induction l with
  | nil => simp
  | cons hd tl ih =>
    cases hd
    · simpa using ih
    · simp only [List.map_cons, List.sum_cons, if_true, List.mem_cons]
      constructor
      · intro h
        exfalso
        have hnn : 0 ≤ ((tl.map fun b => if b = true then (1 : R) else 0)).sum := by
          apply List.sum_nonneg
          intro x hx
          simp only [List.mem_map] at hx
          obtain ⟨b, _, rfl⟩ := hx
          split <;> norm_num
        set s := ((tl.map fun b => if b = true then (1 : R) else 0)).sum with hs
        have h1 : s = -1 := by linear_combination h
        rw [h1] at hnn
        norm_num at hnn
      · intro h
        exact absurd (h true (Or.inl rfl)) (by simp)

/-- An if-then-else success integer built over 0/1 failure indicators is 0
exactly when some cell's failure flag is set. -/
theorem successInt_eq_zero_iff (f : Idx → Bool) (bx : List Idx) :
    ((if ((bx.map fun c => if f c then (1 : R) else 0).sum ≠ 0) then (0 : ℤ) else 1) = 0)
      ↔ ∃ c ∈ bx, f c = true := by
  have hmap : (bx.map fun c => if f c then (1 : R) else 0)
      = (bx.map f).map fun b => if b then (1 : R) else 0 := by
    rw [List.map_map]
    rfl
  by_cases hz : (bx.map fun c => if f c then (1 : R) else 0).sum = 0
  · rw [if_neg (not_not.mpr hz)]
    have hall := (indicatorSum_eq_zero_iff (bx.map f)).mp (by rw [← hmap]; exact hz)
    constructor
    · intro h
      exact absurd h one_ne_zero
    · rintro ⟨c, hc, hf⟩
      have := hall (f c) (List.mem_map_of_mem f hc)
      rw [hf] at this
      exact Bool.noConfusion this
  · rw [if_pos hz]
    constructor
    · intro _
      by_contra hne
      push_neg at hne
      apply hz
      rw [hmap]
      apply (indicatorSum_eq_zero_iff (bx.map f)).mpr
      intro b hb
      simp only [List.mem_map] at hb
      obtain ⟨c, hc, rfl⟩ := hb
      exact Bool.eq_false_iff.mpr (hne c hc)
    · intro _
      rfl

/-- The minimum of a nonempty family of integers drawn from 0 and 1 is 0
exactly when some member is 0. -/
theorem reduceIntMin_eq_zero_iff (s0 : ℤ) (ss : List ℤ)
    (h0 : s0 = 0 ∨ s0 = 1) (hs : ∀ s ∈ ss, s = 0 ∨ s = 1) :
    reduceIntMin s0 ss = 0 ↔ (s0 = 0 ∨ ∃ s ∈ ss, s = 0) := by
  induction ss generalizing s0 with
  | nil => simp [reduceIntMin]
  | cons hd tl ih =>
    have hhd : hd = 0 ∨ hd = 1 := hs hd (List.mem_cons_self hd tl)
    have h1 : min s0 hd = 0 ∨ min s0 hd = 1 := by
      rcases h0 with h | h <;> rcases hhd with h2 | h2 <;> simp [h, h2]
    have hrec := ih (min s0 hd) h1 (fun s hsm => hs s (List.mem_cons_of_mem _ hsm))
    simp only [reduceIntMin, List.foldl_cons] at hrec ⊢
    rw [hrec]
    rcases h0 with h | h <;> rcases hhd with h2 | h2 <;> subst h <;> rw [h2] <;>
      simp [List.mem_cons]

/-- C4: for both couplers, the cross-worker success flag is false exactly
when at least one cell on at least one worker records a failed burn; the
flag is the ReduceIntMin of the per-worker integers, each obtained from the
ReduceOpSum of the per-cell 0/1 failure indicators. -/
theorem global_success_iff_no_cell_failed (p q : Params)
    (burner burner2 : BurnT → R → BurnT) (dt dt2 : R)
    (w0 : StrangWorker) (ws : List StrangWorker)
    (v0 : SdcWorker) (vs : List SdcWorker) :
    (strangGlobalSuccess p burner dt w0 ws = false ↔
      ∃ w ∈ w0 :: ws, ∃ c ∈ w.bx, strangCellFailed p burner w.U dt c = true) ∧
    (sdcGlobalSuccess q burner2 dt2 v0 vs = false ↔
      ∃ w ∈ v0 :: vs, ∃ c ∈ w.bx,
        sdcCellFailed q burner2 w.Uold w.Unew w.asrc dt2 c = true) := by
  constructor
  · have hval : ∀ w : StrangWorker, strangWorkerSuccessInt p burner w.U w.bx dt = 0 ∨
        strangWorkerSuccessInt p burner w.U w.bx dt = 1 := by
      intro w
      unfold strangWorkerSuccessInt
      split
      · exact Or.inl rfl
      · exact Or.inr rfl
    rw [strangGlobalSuccess, decide_eq_false_iff_not, not_not]
    rw [reduceIntMin_eq_zero_iff _ _ (hval w0) (by
      intro s hsm
      simp only [List.mem_map] at hsm
      obtain ⟨w, _, rfl⟩ := hsm
      exact hval w)]
    constructor
    · rintro (h | ⟨s, hsm, hs0⟩)
      · refine ⟨w0, List.mem_cons_self _ _, ?_⟩
        have := (successInt_eq_zero_iff (fun c => strangCellFailed p burner w0.U dt c) w0.bx).mp
        exact this h
      · simp only [List.mem_map] at hsm
        obtain ⟨w, hw, rfl⟩ := hsm
        refine ⟨w, List.mem_cons_of_mem _ hw, ?_⟩
        exact (successInt_eq_zero_iff (fun c => strangCellFailed p burner w.U dt c) w.bx).mp hs0
    · rintro ⟨w, hw, c, hc, hf⟩
      rcases List.mem_cons.mp hw with rfl | hw
      · exact Or.inl ((successInt_eq_zero_iff
          (fun c => strangCellFailed p burner w.U dt c) w.bx).mpr ⟨c, hc, hf⟩)
      · exact Or.inr ⟨strangWorkerSuccessInt p burner w.U w.bx dt,
          List.mem_map_of_mem _ hw,
          (successInt_eq_zero_iff (fun c => strangCellFailed p burner w.U dt c) w.bx).mpr
            ⟨c, hc, hf⟩⟩
  · have hval : ∀ w : SdcWorker,
        sdcWorkerSuccessInt q burner2 w.Uold w.Unew w.asrc w.bx dt2 = 0 ∨
        sdcWorkerSuccessInt q burner2 w.Uold w.Unew w.asrc w.bx dt2 = 1 := by
      intro w
      unfold sdcWorkerSuccessInt
      split
      · exact Or.inl rfl
      · exact Or.inr rfl
    rw [sdcGlobalSuccess, decide_eq_false_iff_not, not_not]
    rw [reduceIntMin_eq_zero_iff _ _ (hval v0) (by
      intro s hsm
      simp only [List.mem_map] at hsm
      obtain ⟨w, _, rfl⟩ := hsm
      exact hval w)]
    constructor
    · rintro (h | ⟨s, hsm, hs0⟩)
      · refine ⟨v0, List.mem_cons_self _ _, ?_⟩
        exact (successInt_eq_zero_iff
          (fun c => sdcCellFailed q burner2 v0.Uold v0.Unew v0.asrc dt2 c) v0.bx).mp h
      · simp only [List.mem_map] at hsm
        obtain ⟨w, hw, rfl⟩ := hsm
        refine ⟨w, List.mem_cons_of_mem _ hw, ?_⟩
        exact (successInt_eq_zero_iff
          (fun c => sdcCellFailed q burner2 w.Uold w.Unew w.asrc dt2 c) w.bx).mp hs0
    · rintro ⟨w, hw, c, hc, hf⟩
      rcases List.mem_cons.mp hw with rfl | hw
      · exact Or.inl ((successInt_eq_zero_iff
          (fun c => sdcCellFailed q burner2 w.Uold w.Unew w.asrc dt2 c) w.bx).mpr ⟨c, hc, hf⟩)
      · exact Or.inr ⟨sdcWorkerSuccessInt q burner2 w.Uold w.Unew w.asrc w.bx dt2,
          List.mem_map_of_mem _ hw,
          (successInt_eq_zero_iff
            (fun c => sdcCellFailed q burner2 w.Uold w.Unew w.asrc dt2 c) w.bx).mpr
            ⟨c, hc, hf⟩⟩

/-- C1 counterexample: in the SDC coupler a cell with do_burn = false is
not written at all, so its cost-metric entry keeps the initial zero of the
pass instead of the value 1 the claim asserts for both couplers.  The cell
lies in the tile box and in the reactions array's region; do_burn is false
because the old-time temperature 1 is below react_T_min = 5. -/
theorem sdc_cost_metric_not_one :
    (sdcReact pNoBurnT5 burnerId stateT1 stateT1 zeroArr containsAll [c000] 1).rates
        c000 (pNoBurnT5.numSpec + pNoBurnT5.numAux + 1) = 0 ∧
    (sdcReact pNoBurnT5 burnerId stateT1 stateT1 zeroArr containsAll [c000] 1).rates
        c000 (pNoBurnT5.numSpec + pNoBurnT5.numAux + 1) ≠ 1 := by
  have hnb : sdcDoBurn pNoBurnT5 stateT1 stateT1 c000 = false := by
    norm_num [sdcDoBurn, doBurnFlag, stateT1, pNoBurnT5, URHO, UTEMP, UFS, USHK]
  constructor
  · simp [sdcReact, sdcKernelRates, hnb]
  · simp [sdcReact, sdcKernelRates, hnb]

/-- C1 (amended): for a cell with do_burn = false that the reactions array
contains, the Strang coupler zeros the species, auxiliary and energy-rate
entries and sets the cost metric to 1, while the SDC coupler leaves every
entry of such a cell at the zero set at the start of the pass (cost metric
included). -/
theorem no_burn_rates_zero_cost
    (p : Params) (burner : BurnT → R → BurnT)
    (U r0 coarse : Idx → ℕ → R) (cU cR : Idx → Bool)
    (v0 : Idx) (vs bx : List Idx) (dt : R) (c : Idx)
    (Uo Un asrc : Idx → ℕ → R) (cR2 : Idx → Bool) (bx2 : List Idx) (dt2 : R) (c2 : Idx)
    (hdr : p.do_react = 1)
    (hgate : validZonesToBurn p (stateRT U v0) (vs.map (stateRT U)) = some true)
    (hlev : strangSolveHere p = true)
    (hc : c ∈ bx) (hcr : cR c = true) (hnb : strangDoBurn p U c = false)
    (hnb2 : sdcDoBurn p Uo Un c2 = false) :
    (∀ comp, comp < p.numSpec + p.numAux + 1 →
      (strangReact p burner U r0 coarse cU cR v0 vs bx dt).map
        (fun res => res.rates c comp) = some 0) ∧
    (strangReact p burner U r0 coarse cU cR v0 vs bx dt).map
      (fun res => res.rates c (p.numSpec + p.numAux + 1)) = some 1 ∧
    (∀ comp, (sdcReact p burner Uo Un asrc cR2 bx2 dt2).rates c2 comp = 0) := by
  have hrw := strangReact_eq_burnPath p burner U r0 coarse cU cR v0 vs bx dt hdr hgate
  have hrates := strangBurnPath_rates p burner U r0 coarse cU cR bx dt hlev
  refine ⟨?_, ?_, ?_⟩
  · intro comp hcomp
    rw [hrw, Option.map_some', hrates]
    simp [strangKernelRates, strangCellRates, hc, hcr, hnb, hcomp]
  · rw [hrw, Option.map_some', hrates]
    simp [strangKernelRates, strangCellRates, hc, hcr, hnb]
  · intro comp
    simp [sdcReact, sdcKernelRates, hnb2]

/-- Witness for no_burn_rates_zero_cost at a concrete non-burning cell of
both couplers. -/
theorem no_burn_rates_zero_cost_witness :
    ((strangReact pNoBurnT5 burnerId stateT1 zeroArr zeroArr containsAll containsAll
        c000 [] [c000] 1).map (fun res => res.rates c000 0) = some 0) ∧
    ((strangReact pNoBurnT5 burnerId stateT1 zeroArr zeroArr containsAll containsAll
        c000 [] [c000] 1).map
        (fun res => res.rates c000 (pNoBurnT5.numSpec + pNoBurnT5.numAux + 1)) = some 1) ∧
    (sdcReact pNoBurnT5 burnerId stateT1 stateT1 zeroArr containsAll [c000] 1).rates
        c000 0 = 0 := by
  obtain ⟨h1, h2, h3⟩ := no_burn_rates_zero_cost pNoBurnT5 burnerId stateT1 zeroArr zeroArr
    containsAll containsAll c000 [] [c000] 1 c000 stateT1 stateT1 zeroArr containsAll [c000] 1 c000
    (by norm_num [pNoBurnT5])
    (by norm_num [validZonesToBurn, readBackSmall, readBackLarge, smallLimiters, largeLimiters,
                  limitSmallRho, limitLargeRho, limitSmallT, limitLargeT, vSmall, vLarge,
                  gridMin, gridMax, stateRT, stateT1, pNoBurnT5, URHO, UTEMP])
    (by norm_num [strangSolveHere, pNoBurnT5])
    (by simp)
    rfl
    (by norm_num [strangDoBurn, doBurnFlag, stateT1, pNoBurnT5, URHO, UTEMP, UFS, USHK])
    (by norm_num [sdcDoBurn, doBurnFlag, stateT1, pNoBurnT5, URHO, UTEMP, UFS, USHK])
  exact ⟨h1 0 (by norm_num [pNoBurnT5]), h2, h3 0⟩

/-- C5: for a cell the Strang coupler burns that both the state and the
reactions arrays contain, with nonzero dt and nonzero density, the second
pass (state += rate * dt) reproduces the integrator's post-burn values
exactly in the model's exact arithmetic: each species partial density
becomes rho times the post-burn mass fraction, each auxiliary partial
density becomes rho times the post-burn auxiliary fraction, and internal
and total energy each grow by exactly rho times the post-burn specific
energy. -/
theorem strang_roundtrip_reproduces_burn
    (p : Params) (burner : BurnT → R → BurnT)
    (U r0 coarse : Idx → ℕ → R) (cU cR : Idx → Bool)
    (v0 : Idx) (vs bx : List Idx) (dt : R) (c : Idx)
    (hdr : p.do_react = 1)
    (hgate : validZonesToBurn p (stateRT U v0) (vs.map (stateRT U)) = some true)
    (hlev : strangSolveHere p = true)
    (hc : c ∈ bx) (hcu : cU c = true) (hcr : cR c = true)
    (hburn : strangDoBurn p U c = true)
    (hdt : dt ≠ 0) (hrho : U c URHO ≠ 0) :
    (∀ n, n < p.numSpec →
      (strangReact p burner U r0 coarse cU cR v0 vs bx dt).map
        (fun res => res.state c (UFS + n))
        = some (U c URHO * (strangBurnOut p burner U dt c).xn n)) ∧
    (∀ n, n < p.numAux →
      (strangReact p burner U r0 coarse cU cR v0 vs bx dt).map
        (fun res => res.state c (UFX p + n))
        = some (U c URHO * (strangBurnOut p burner U dt c).aux n)) ∧
    ((strangReact p burner U r0 coarse cU cR v0 vs bx dt).map
        (fun res => res.state c UEINT)
        = some (U c UEINT + U c URHO * (strangBurnOut p burner U dt c).e)) ∧
    ((strangReact p burner U r0 coarse cU cR v0 vs bx dt).map
        (fun res => res.state c UEDEN)
        = some (U c UEDEN + U c URHO * (strangBurnOut p burner U dt c).e)) := by
  have hrw := strangReact_eq_burnPath p burner U r0 coarse cU cR v0 vs bx dt hdr hgate
  have hstate := strangBurnPath_state p burner U r0 coarse cU cR bx dt hlev
  have hguard : c ∈ bx ∧ cU c = true ∧ cR c = true := ⟨hc, hcu, hcr⟩
  have hguardR : c ∈ bx ∧ cR c = true := ⟨hc, hcr⟩
  refine ⟨?_, ?_, ?_, ?_⟩
  · intro n hn
    rw [hrw, Option.map_some', hstate]
    have c1 : UFS ≤ UFS + n ∧ UFS + n < UFS + p.numSpec := ⟨Nat.le_add_right _ _, by omega⟩
    have e1 : UFS + n - UFS = n := by omega
    simp only [strangApplyRates, if_pos hguard, if_pos c1, e1,
               strangKernelRates, if_pos hguardR, strangCellRates, hburn, if_true,
               if_pos hn]
    field_simp
    ring
  · intro n hn
    rw [hrw, Option.map_some', hstate]
    have c1 : ¬(UFS ≤ UFX p + n ∧ UFX p + n < UFS + p.numSpec) := by
      simp only [UFS, UFX]
      omega
    have c2 : UFX p ≤ UFX p + n ∧ UFX p + n < UFX p + p.numAux :=
      ⟨Nat.le_add_right _ _, by omega⟩
    have e1 : UFX p + n - UFX p + p.numSpec = n + p.numSpec := by
      simp only [UFX]
      omega
    have c3 : ¬(n + p.numSpec < p.numSpec) := by omega
    have c4 : n + p.numSpec < p.numSpec + p.numAux := by omega
    have e2 : n + p.numSpec - p.numSpec = n := by omega
    simp only [strangApplyRates, if_pos hguard, if_neg c1, if_pos c2, e1,
               strangKernelRates, if_pos hguardR, strangCellRates, hburn, if_true,
               if_neg c3, if_pos c4, e2]
    field_simp
    ring
  · rw [hrw, Option.map_some', hstate]
    have c1 : ¬(UFS ≤ UEINT ∧ UEINT < UFS + p.numSpec) := by
      simp only [UFS, UEINT]
      omega
    have c2 : ¬(UFX p ≤ UEINT ∧ UEINT < UFX p + p.numAux) := by
      simp only [UFX, UEINT]
      omega
    have c3 : ¬(p.numSpec + p.numAux < p.numSpec) := by omega
    have c4 : ¬(p.numSpec + p.numAux < p.numSpec + p.numAux) := lt_irrefl _
    simp only [strangApplyRates, if_pos hguard, if_neg c1, if_neg c2, if_pos rfl,
               strangKernelRates, if_pos hguardR, strangCellRates, hburn, if_true,
               if_neg c3, if_neg c4]
    field_simp
  · rw [hrw, Option.map_some', hstate]
    have c1 : ¬(UFS ≤ UEDEN ∧ UEDEN < UFS + p.numSpec) := by
      simp only [UFS, UEDEN]
      omega
    have c2 : ¬(UFX p ≤ UEDEN ∧ UEDEN < UFX p + p.numAux) := by
      simp only [UFX, UEDEN]
      omega
    have c5 : UEDEN ≠ UEINT := by
      simp [UEDEN, UEINT]
    have c3 : ¬(p.numSpec + p.numAux < p.numSpec) := by omega
    have c4 : ¬(p.numSpec + p.numAux < p.numSpec + p.numAux) := lt_irrefl _
    simp only [strangApplyRates, if_pos hguard, if_neg c1, if_neg c2, if_neg c5,
               if_pos rfl, strangKernelRates, if_pos hguardR, strangCellRates, hburn,
               if_true, if_neg c3, if_neg c4]
    field_simp

/-- Witness for strang_roundtrip_reproduces_burn: a concrete burning cell
of density 2 whose species fraction moves to 1/2, auxiliary fraction to 1/4
and specific energy to 2. -/
theorem strang_roundtrip_reproduces_burn_witness :
    ((strangReact pRoundTrip burnerRT stateRT2 zeroArr zeroArr containsAll containsAll
        c000 [] [c000] 1).map (fun res => res.state c000 (UFS + 0))
      = some (stateRT2 c000 URHO * (strangBurnOut pRoundTrip burnerRT stateRT2 1 c000).xn 0)) ∧
    ((strangReact pRoundTrip burnerRT stateRT2 zeroArr zeroArr containsAll containsAll
        c000 [] [c000] 1).map (fun res => res.state c000 (UFX pRoundTrip + 0))
      = some (stateRT2 c000 URHO * (strangBurnOut pRoundTrip burnerRT stateRT2 1 c000).aux 0)) ∧
    ((strangReact pRoundTrip burnerRT stateRT2 zeroArr zeroArr containsAll containsAll
        c000 [] [c000] 1).map (fun res => res.state c000 UEINT)
      = some (stateRT2 c000 UEINT +
          stateRT2 c000 URHO * (strangBurnOut pRoundTrip burnerRT stateRT2 1 c000).e)) := by
  obtain ⟨h1, h2, h3, h4⟩ := strang_roundtrip_reproduces_burn pRoundTrip burnerRT stateRT2
    zeroArr zeroArr containsAll containsAll c000 [] [c000] 1 c000
    (by norm_num [pRoundTrip])
    (by norm_num [validZonesToBurn, limitSmallRho, limitLargeRho, limitSmallT, limitLargeT,
                  vSmall, vLarge, pRoundTrip])
    (by norm_num [strangSolveHere, pRoundTrip])
    (by simp) rfl rfl
    (by norm_num [strangDoBurn, doBurnFlag, stateRT2, pRoundTrip,
                  URHO, UTEMP, UEINT, UEDEN, UFS, UFX, USHK])
    one_ne_zero
    (by norm_num [stateRT2, URHO])
  exact ⟨h1 0 (by norm_num [pRoundTrip]), h2 0 (by norm_num [pRoundTrip]), h3⟩

/-- C6: evaluation of the diagnostic at the failing configuration
NumAux = 0.  The energy-added report sums component NumSpec + 1 of the
reactions array, but with no auxiliary species the energy rate sits at
component NumSpec and NumSpec + 1 holds the cost metric: on a one-cell
domain whose burn generates energy rate 5 at cost 3, the code reports 3
while the energy-rate sum is 5, contradicting the code's own "(rho e)
added from burning" message.  The two agree only when NumAux = 1. -/
theorem diagnostic_sums_cost_not_energy :
    ((strangReact pBurnAll burnerDiag stateT1 zeroArr zeroArr containsAll containsAll
        c000 [] [c000] 1).map
        (fun res => eAddedDiagnostic pBurnAll [c000] res.rates) = some 3) ∧
    ((strangReact pBurnAll burnerDiag stateT1 zeroArr zeroArr containsAll containsAll
        c000 [] [c000] 1).map
        (fun res => mfSum [c000] res.rates (pBurnAll.numSpec + pBurnAll.numAux)) = some 5) ∧
    (3 : R) ≠ 5 := by
  have hgate : validZonesToBurn pBurnAll (stateRT stateT1 c000)
      (([] : List Idx).map (stateRT stateT1)) = some true := by
    norm_num [validZonesToBurn, limitSmallRho, limitLargeRho, limitSmallT, limitLargeT,
              vSmall, vLarge, pBurnAll]
  have hrw := strangReact_eq_burnPath pBurnAll burnerDiag stateT1 zeroArr zeroArr
    containsAll containsAll c000 [] [c000] 1 (by norm_num [pBurnAll]) hgate
  have hrates := strangBurnPath_rates pBurnAll burnerDiag stateT1 zeroArr zeroArr
    containsAll containsAll [c000] 1 (by norm_num [strangSolveHere, pBurnAll])
  refine ⟨?_, ?_, by norm_num⟩
  · rw [hrw, Option.map_some', hrates]
    norm_num [eAddedDiagnostic, mfSum, strangKernelRates, strangCellRates, strangDoBurn,
              doBurnFlag, strangBurnOut, strangBurnIn, burnerDiag, stateT1, pBurnAll,
              containsAll, zeroArr, URHO, UTEMP, UEINT, UEDEN, UFS, UFX, USHK]
  · rw [hrw, Option.map_some', hrates]
    norm_num [mfSum, strangKernelRates, strangCellRates, strangDoBurn,
              doBurnFlag, strangBurnOut, strangBurnIn, burnerDiag, stateT1, pBurnAll,
              containsAll, zeroArr, URHO, UTEMP, UEINT, UEDEN, UFS, UFX, USHK]

/-- C7 counterexample: on the Strang burn path the rate array is not reset:
with a one-cell tile box and a rate array whose halo cell c100 enters the
call holding the stale value 7, the call returns with that entry still 7,
so the rate array is neither zeroed at the start of the call nor left
holding only zeros and freshly computed rates. -/
theorem strang_rates_not_reset_on_burn_path :
    ((strangReact pBurnAll burnerDiag stateT1 staleArr zeroArr containsAll containsAll
        c000 [] [c000] 1).map (fun res => res.rates c100 0) = some 7) ∧
    (7 : R) ≠ 0 := by
  have hgate : validZonesToBurn pBurnAll (stateRT stateT1 c000)
      (([] : List Idx).map (stateRT stateT1)) = some true := by
    norm_num [validZonesToBurn, limitSmallRho, limitLargeRho, limitSmallT, limitLargeT,
              vSmall, vLarge, pBurnAll]
  have hrw := strangReact_eq_burnPath pBurnAll burnerDiag stateT1 staleArr zeroArr
    containsAll containsAll c000 [] [c000] 1 (by norm_num [pBurnAll]) hgate
  have hrates := strangBurnPath_rates pBurnAll burnerDiag stateT1 staleArr zeroArr
    containsAll containsAll [c000] 1 (by norm_num [strangSolveHere, pBurnAll])
  refine ⟨?_, by norm_num⟩
  rw [hrw, Option.map_some', hrates]
  have hmem : c100 ∉ ([c000] : List Idx) := by
    simp [c000, c100]
  simp [strangKernelRates, hmem, staleArr, c000, c100]

/-- C7 (amended): the SDC coupler zeroes the whole rate array at the start
of every call, so every entry it does not freshly write is 0 on return; the
Strang coupler zeroes the rate array only on its two early-exit paths
(do_react disabled and zone-gate skip), and on the burn path an entry
outside the processed boxes or outside the rate array's region keeps its
previous contents. -/
theorem rates_reset_semantics
    (p : Params) (burner : BurnT → R → BurnT)
    (Uo Un asrc : Idx → ℕ → R) (cR2 : Idx → Bool) (bx2 : List Idx) (dt2 : R)
    (U r0 coarse : Idx → ℕ → R) (cU cR : Idx → Bool)
    (v0 : Idx) (vs bx : List Idx) (dt : R) (c : Idx) (comp : ℕ) :
    ((c ∉ bx2 ∨ sdcDoBurn p Uo Un c = false ∨ cR2 c = false) →
      (sdcReact p burner Uo Un asrc cR2 bx2 dt2).rates c comp = 0) ∧
    (p.do_react ≠ 1 →
      (strangReact p burner U r0 coarse cU cR v0 vs bx dt).map
        (fun res => res.rates c comp) = some 0) ∧
    (validZonesToBurn p (stateRT U v0) (vs.map (stateRT U)) = some false →
      (strangReact p burner U r0 coarse cU cR v0 vs bx dt).map
        (fun res => res.rates c comp) = some 0) ∧
    (p.do_react = 1 →
      validZonesToBurn p (stateRT U v0) (vs.map (stateRT U)) = some true →
      strangSolveHere p = true →
      (c ∉ bx ∨ cR c = false) →
      (strangReact p burner U r0 coarse cU cR v0 vs bx dt).map
        (fun res => res.rates c comp) = some (r0 c comp)) := by
  refine ⟨?_, ?_, ?_, ?_⟩
  · rintro (h | h | h) <;> simp [sdcReact, sdcKernelRates, h]
  · intro h
    simp [strangReact, h, strangEarlyExit]
  · intro h
    by_cases hd : p.do_react = 1
    · simp [strangReact, hd, h, strangEarlyExit]
    · simp [strangReact, hd, strangEarlyExit]
  · intro hd hg hlev hout
    rw [strangReact_eq_burnPath p burner U r0 coarse cU cR v0 vs bx dt hd hg,
        Option.map_some', strangBurnPath_rates p burner U r0 coarse cU cR bx dt hlev]
    rcases hout with h | h <;> simp [strangKernelRates, h]

/-- Witness for rates_reset_semantics: the four reset behaviours at
concrete runs of both couplers. -/
theorem rates_reset_semantics_witness :
    ((sdcReact pBurnAll burnerDiag stateT1 stateT1 zeroArr containsAll [c000] 1).rates
        c100 0 = 0) ∧
    ((strangReact pReactOff burnerDiag stateT1 staleArr zeroArr containsAll containsAll
        c000 [] [c000] 1).map (fun res => res.rates c000 0) = some 0) ∧
    ((strangReact pGateSkip burnerDiag stateT1 staleArr zeroArr containsAll containsAll
        c000 [] [c000] 1).map (fun res => res.rates c000 0) = some 0) ∧
    ((strangReact pBurnAll burnerDiag stateT1 staleArr zeroArr containsAll containsAll
        c000 [] [c000] 1).map (fun res => res.rates c100 3) = some (staleArr c100 3)) := by
  have hmem : c100 ∉ ([c000] : List Idx) := by
    simp [c000, c100]
  refine ⟨?_, ?_, ?_, ?_⟩
  · exact (rates_reset_semantics pBurnAll burnerDiag stateT1 stateT1 zeroArr containsAll
      [c000] 1 stateT1 staleArr zeroArr containsAll containsAll c000 [] [c000] 1 c100 0).1
      (Or.inl hmem)
  · exact (rates_reset_semantics pReactOff burnerDiag stateT1 stateT1 zeroArr containsAll
      [c000] 1 stateT1 staleArr zeroArr containsAll containsAll c000 [] [c000] 1 c000 0).2.1
      (by norm_num [pReactOff])
  · exact (rates_reset_semantics pGateSkip burnerDiag stateT1 stateT1 zeroArr containsAll
      [c000] 1 stateT1 staleArr zeroArr containsAll containsAll c000 [] [c000] 1 c000 0).2.2.1
      (by norm_num [validZonesToBurn, readBackSmall, readBackLarge, smallLimiters,
                    largeLimiters, limitSmallRho, limitLargeRho, limitSmallT, limitLargeT,
                    vSmall, vLarge, gridMin, gridMax, stateRT, stateT1, pGateSkip,
                    URHO, UTEMP, UFS])
  · exact (rates_reset_semantics pBurnAll burnerDiag stateT1 stateT1 zeroArr containsAll
      [c000] 1 stateT1 staleArr zeroArr containsAll containsAll c000 [] [c000] 1 c100 3).2.2.2
      (by norm_num [pBurnAll])
      (by norm_num [validZonesToBurn, limitSmallRho, limitLargeRho, limitSmallT,
                    limitLargeT, vSmall, vLarge, pBurnAll])
      (by norm_num [strangSolveHere, pBurnAll])
      (Or.inl hmem)

/-- A component of the new-time state that is none of total energy,
internal energy, a species slot or an auxiliary slot is never written by
the SDC kernel. -/
theorem sdcKernelState_untouched (p : Params) (burner : BurnT → R → BurnT)
    (Uo Un asrc : Idx → ℕ → R) (bx : List Idx) (dt : R) (c : Idx) (comp : ℕ)
    (h1 : comp ≠ UEDEN) (h2 : comp ≠ UEINT)
    (h3 : ¬(UFS ≤ comp ∧ comp < UFS + p.numSpec))
    (h4 : ¬(UFX p ≤ comp ∧ comp < UFX p + p.numAux)) :
    sdcKernelState p burner Uo Un asrc bx dt c comp = Un c comp := by
  simp only [sdcKernelState]
  split
  · simp [h1, h2, h3, h4]
  · rfl

/-- C8: the SDC coupler leaves density and momentum unchanged in every
cell; a cell with do_burn = false keeps every component of the advected
new-time state; and a burning cell of the tile box has exactly its
total-energy, internal-energy, species and auxiliary components overwritten
with the integrator's conserved output. -/
theorem sdc_state_component_effects (p : Params) (burner : BurnT → R → BurnT)
    (Uo Un asrc : Idx → ℕ → R) (cR : Idx → Bool) (bx : List Idx) (dt : R) (c : Idx) :
    ((sdcReact p burner Uo Un asrc cR bx dt).newState c URHO = Un c URHO ∧
     (sdcReact p burner Uo Un asrc cR bx dt).newState c UMX = Un c UMX ∧
     (sdcReact p burner Uo Un asrc cR bx dt).newState c UMY = Un c UMY ∧
     (sdcReact p burner Uo Un asrc cR bx dt).newState c UMZ = Un c UMZ) ∧
    (sdcDoBurn p Uo Un c = false →
      ∀ comp, (sdcReact p burner Uo Un asrc cR bx dt).newState c comp = Un c comp) ∧
    (sdcDoBurn p Uo Un c = true → c ∈ bx →
      ((sdcReact p burner Uo Un asrc cR bx dt).newState c UEDEN
          = (sdcBurnOut p burner Uo Un asrc dt c).y SEDEN ∧
       (sdcReact p burner Uo Un asrc cR bx dt).newState c UEINT
          = (sdcBurnOut p burner Uo Un asrc dt c).y SEINT ∧
       (∀ n, n < p.numSpec →
         (sdcReact p burner Uo Un asrc cR bx dt).newState c (UFS + n)
            = (sdcBurnOut p burner Uo Un asrc dt c).y (SFS + n)) ∧
       (∀ n, n < p.numAux →
         (sdcReact p burner Uo Un asrc cR bx dt).newState c (UFX p + n)
            = (sdcBurnOut p burner Uo Un asrc dt c).y (SFX p + n)) ∧
       (∀ comp, comp ≠ UEDEN → comp ≠ UEINT →
         ¬(UFS ≤ comp ∧ comp < UFS + p.numSpec) →
         ¬(UFX p ≤ comp ∧ comp < UFX p + p.numAux) →
         (sdcReact p burner Uo Un asrc cR bx dt).newState c comp = Un c comp))) := by
  refine ⟨⟨?_, ?_, ?_, ?_⟩, ?_, ?_⟩
  · exact sdcKernelState_untouched p burner Uo Un asrc bx dt c URHO
      (by decide) (by decide)
      (by simp only [UFS, URHO]; omega) (by simp only [UFX, URHO]; omega)
  · exact sdcKernelState_untouched p burner Uo Un asrc bx dt c UMX
      (by decide) (by decide)
      (by simp only [UFS, UMX]; omega) (by simp only [UFX, UMX]; omega)
  · exact sdcKernelState_untouched p burner Uo Un asrc bx dt c UMY
      (by decide) (by decide)
      (by simp only [UFS, UMY]; omega) (by simp only [UFX, UMY]; omega)
  · exact sdcKernelState_untouched p burner Uo Un asrc bx dt c UMZ
      (by decide) (by decide)
      (by simp only [UFS, UMZ]; omega) (by simp only [UFX, UMZ]; omega)
  · intro hnb comp
    simp [sdcReact, sdcKernelState, hnb]
  · intro hb hc
    have hguard : c ∈ bx ∧ sdcDoBurn p Uo Un c = true := ⟨hc, hb⟩
    refine ⟨?_, ?_, ?_, ?_, ?_⟩
    · simp [sdcReact, sdcKernelState, hguard]
    · have hne : UEINT ≠ UEDEN := by decide
      simp [sdcReact, sdcKernelState, hguard, hne]
    · intro n hn
      have hne1 : UFS + n ≠ UEDEN := by simp only [UFS, UEDEN]; omega
      have hne2 : UFS + n ≠ UEINT := by simp only [UFS, UEINT]; omega
      have hin : UFS ≤ UFS + n ∧ UFS + n < UFS + p.numSpec :=
        ⟨Nat.le_add_right _ _, by omega⟩
      have he : UFS + n - UFS = n := by omega
      simp only [sdcReact, sdcKernelState, if_pos hguard, if_neg hne1, if_neg hne2,
                 if_pos hin, he]
    · intro n hn
      have hne1 : UFX p + n ≠ UEDEN := by simp only [UFX, UEDEN]; omega
      have hne2 : UFX p + n ≠ UEINT := by simp only [UFX, UEINT]; omega
      have hnin : ¬(UFS ≤ UFX p + n ∧ UFX p + n < UFS + p.numSpec) := by
        simp only [UFS, UFX]
        omega
      have hin : UFX p ≤ UFX p + n ∧ UFX p + n < UFX p + p.numAux :=
        ⟨Nat.le_add_right _ _, by omega⟩
      have he : UFX p + n - UFX p = n := by omega
      simp only [sdcReact, sdcKernelState, if_pos hguard, if_neg hne1, if_neg hne2,
                 if_neg hnin, if_pos hin, he]
    · intro comp h1 h2 h3 h4
      exact sdcKernelState_untouched p burner Uo Un asrc bx dt c comp h1 h2 h3 h4

/-- Witness for sdc_state_component_effects: a concrete SDC run in which a
burning cell keeps its density and momentum, gets the integrator's energy,
and a non-burning run keeps the advected state. -/
theorem sdc_state_component_effects_witness :
    ((sdcReact pBurnAll burnerY stateOld8 stateNew8 zeroArr containsAll [c000] 1).newState
        c000 URHO = stateNew8 c000 URHO) ∧
    ((sdcReact pBurnAll burnerY stateOld8 stateNew8 zeroArr containsAll [c000] 1).newState
        c000 UEDEN = (sdcBurnOut pBurnAll burnerY stateOld8 stateNew8 zeroArr 1 c000).y SEDEN) ∧
    ((sdcReact pNoBurnT5 burnerY stateT1 stateNew8 zeroArr containsAll [c000] 1).newState
        c000 UTEMP = stateNew8 c000 UTEMP) := by
  refine ⟨?_, ?_, ?_⟩
  · exact (sdc_state_component_effects pBurnAll burnerY stateOld8 stateNew8 zeroArr
      containsAll [c000] 1 c000).1.1
  · exact ((sdc_state_component_effects pBurnAll burnerY stateOld8 stateNew8 zeroArr
      containsAll [c000] 1 c000).2.2
      (by norm_num [sdcDoBurn, doBurnFlag, stateOld8, stateNew8, pBurnAll,
                    URHO, UTEMP, USHK])
      (by simp)).1
  · exact (sdc_state_component_effects pNoBurnT5 burnerY stateT1 stateNew8 zeroArr
      containsAll [c000] 1 c000).2.1
      (by norm_num [sdcDoBurn, doBurnFlag, stateT1, stateNew8, pNoBurnT5,
                    URHO, UTEMP, UFS, USHK]) UTEMP

end Castro
